import Mathlib

/-!
Shallow embedding of `src/app.py` (controllo_calendario): time parsing,
record normalization, and the three data-quality checks (hour consistency,
duplicate pairs, interval overlaps by teacher fiscal code / class).

Conventions of the embedding:
* Scalar cells are `Option String` / `Option ℚ`; `none` models a missing
  value (`NaN` / `NaT` in the source's dataframe).
* Results of the external library coercions (`pd.to_datetime` for the
  `DATA LEZIONE` column, `pd.to_numeric` for `TOTALE_ORE`) are taken as
  inputs of the model: a date is an `Option Nat` (day number, `none` = NaT),
  the declared amount an `Option ℚ`.
* Real arithmetic of the source (Python floats) is modelled with exact
  rationals; `round` is Python's round-half-to-even.
* Timestamps are integer seconds from the midnight of day 0.
-/

namespace ControlloCalendario

/-- A `datetime.time` value: hour, minute, second. -/
structure Time where
  hour : Nat
  minute : Nat
  second : Nat
deriving DecidableEq, Repr, Inhabited

/-- Python `round` to the nearest integer, ties to even (banker's rounding). -/
def pyRound (q : ℚ) : ℤ :=
  if 1/2 < q - ⌊q⌋ then ⌊q⌋ + 1
  else if q - ⌊q⌋ < 1/2 then ⌊q⌋
  else if ⌊q⌋ % 2 = 0 then ⌊q⌋ else ⌊q⌋ + 1

/-- `.round(2)`: round to 2 decimal places (ties to even). -/
def round2 (q : ℚ) : ℚ := (pyRound (q * 100) : ℚ) / 100

/-- Numeric value of a list of ASCII digits. -/
def digitsToNat (cs : List Char) : Nat :=
  cs.foldl (fun a c => a * 10 + (c.toNat - '0'.toNat)) 0

/-- Python `str.strip()`: drop whitespace from both ends. -/
def stripChars (cs : List Char) : List Char :=
  ((cs.dropWhile Char.isWhitespace).reverse.dropWhile Char.isWhitespace).reverse

/-- Python `str.strip()` on a string. -/
def pyStrip (s : String) : String := ⟨stripChars s.toList⟩

/-- `.replace('.', ':')`: the pattern is a single character, so the
substring replacement is a character map. -/
def dotToColon (cs : List Char) : List Char :=
  cs.map fun c => if c = '.' then ':' else c

/-- Python `str.upper()` (ASCII, which covers the data handled here). -/
def pyUpper (s : String) : String := ⟨s.toList.map Char.toUpper⟩

/-- Python `str.lower()`. -/
def pyLower (s : String) : String := ⟨s.toList.map Char.toLower⟩

/-- Split a character list at every occurrence of `sep` (like Python
`str.split(sep)`): used to model the field structure of the `strptime`
formats, whose separators are fixed single characters. -/
def splitChar (sep : Char) : List Char → List (List Char)
  | [] => [[]]
  | c :: rest =>
    if c = sep then [] :: splitChar sep rest
    else
      match splitChar sep rest with
      | [] => [[c]]
      | g :: gs => (c :: g) :: gs

/-- One `strptime` numeric field: 1 or 2 ASCII digits whose value is at most
`mx` (this is exactly what the `%H` / `%M` patterns accept; see `strptimeHMS`
for the `%S` caveat). -/
def parseField (mx : Nat) (cs : List Char) : Option Nat :=
  if (cs.length == 1 || cs.length == 2) && cs.all Char.isDigit then
    if digitsToNat cs ≤ mx then some (digitsToNat cs) else none
  else none

/-- `datetime.strptime(s, "%H:%M").time()`, as a partial function. -/
def strptimeHM (s : String) : Option Time :=
  match splitChar ':' s.toList with
  | [a, b] => do
      let h ← parseField 23 a
      let m ← parseField 59 b
      pure ⟨h, m, 0⟩
  | _ => none

/-- `datetime.strptime(s, "%H.%M").time()`. In `parse_time` every `'.'` has
already been replaced by `':'`, so on the strings it is actually applied to
this format never matches; it is kept because the source lists it. -/
def strptimeHdotM (s : String) : Option Time :=
  match splitChar '.' s.toList with
  | [a, b] => do
      let h ← parseField 23 a
      let m ← parseField 59 b
      pure ⟨h, m, 0⟩
  | _ => none

/-- `datetime.strptime(s, "%H:%M:%S").time()`. The `%S` pattern would also
match the leap-second values 60 and 61, but the `datetime` constructor then
raises `ValueError`, the bare `except` swallows it, and the remaining
fractional-day branch fails on a string containing `':'`; so the net result
for seconds 60/61 is "unparseable", which is what bounding the field by 59
yields here. -/
def strptimeHMS (s : String) : Option Time :=
  match splitChar ':' s.toList with
  | [a, b, c] => do
      let h ← parseField 23 a
      let m ← parseField 59 b
      let sec ← parseField 59 c
      pure ⟨h, m, sec⟩
  | _ => none

/-- Strip one leading sign; returns (isNegative, rest). -/
def stripSign : List Char → (Bool × List Char)
  | '+' :: cs => (false, cs)
  | '-' :: cs => (true, cs)
  | cs => (false, cs)

/-- Helper for `underscoresOk`: scan with the previous character. -/
def undAux : Char → List Char → Bool
  | _, [] => true
  | p, '_' :: rest =>
      match rest with
      | r :: _ => p.isDigit && r.isDigit && undAux '_' rest
      | [] => false
  | _, c :: rest => undAux c rest

/-- Python numeric literals allow `'_'` only between two digits. -/
def underscoresOk : List Char → Bool
  | [] => true
  | '_' :: _ => false
  | c :: rest => undAux c rest

/-- `float(s)` on the strings `parse_time` can feed it: by the time `float`
is called every `'.'` has been replaced by `':'`, so the only accepted forms
are `[sign] digits [("e"|"E") [sign] digits]` (with Python's underscore
rule). The special literals `inf`/`nan` are modelled as unparseable: a real
`float` would accept them, but the subsequent `0 <= f < 2` guard is false
for `inf`, `-inf` and `nan` alike, so `parse_time`'s result is `none` either
way. -/
def pow10 (e : ℤ) : ℚ :=
  if 0 ≤ e then ((10 : ℚ)) ^ e.toNat else 1 / (10 : ℚ) ^ (-e).toNat

def pyFloat (s : String) : Option ℚ :=
  let (neg, cs1) := stripSign s.toList
  if !underscoresOk cs1 then none
  else
    let cs := cs1.filter (· ≠ '_')
    let mant := cs.takeWhile Char.isDigit
    let rest := cs.dropWhile Char.isDigit
    if mant.isEmpty then none
    else
      let base : ℚ := (digitsToNat mant : ℚ)
      let signed := fun (q : ℚ) => if neg then -q else q
      match rest with
      | [] => some (signed base)
      | e :: r2 =>
        if e = 'e' ∨ e = 'E' then
          let (eneg, r3) := stripSign r2
          if !r3.isEmpty && r3.all Char.isDigit then
            let ex : ℤ := if eneg then -(digitsToNat r3 : ℤ) else (digitsToNat r3 : ℤ)
            some (signed (base * pow10 ex))
          else none
        else none

/-- `minutes = f * 24 * 60` of the fractional-day branch. -/
def fracMinutes (f : ℚ) : ℚ := f * 24 * 60

/-- `int(minutes // 60) % 24` of the fractional-day branch. -/
def fracHour (f : ℚ) : ℤ := ⌊fracMinutes f / 60⌋ % 24

/-- `round(minutes % 60)` of the fractional-day branch (`%` on a
nonnegative float is `minutes - 60 * (minutes // 60)`). -/
def fracMin (f : ℚ) : ℤ := pyRound (fracMinutes f - 60 * ⌊fracMinutes f / 60⌋)

/-- The fractional-day (Excel) branch of `parse_time` (src/app.py:36-45):
`minutes = f * 24 * 60`, `h = int(minutes // 60) % 24`,
`m = int(round(minutes % 60))`, then `time(h, m)`. When the rounded minute
is 60 the `time` constructor raises `ValueError`, the bare `except` swallows
it and the function returns `None`. -/
def fracDay (s : String) : Option Time :=
  match pyFloat s with
  | none => none
  | some f =>
    if 0 ≤ f ∧ f < 2 then
      if fracMin f < 60 then some ⟨(fracHour f).toNat, (fracMin f).toNat, 0⟩ else none
    else none

/-- `str(x).strip().replace('.', ':')` (src/app.py:26). -/
def cleanTime (raw : String) : String := ⟨dotToColon (stripChars raw.toList)⟩

/-- `parse_time` (src/app.py:22-47). The input is the cell already turned
into a string (`str(x)`); `none` models a `NaN` cell (`pd.isna`). -/
def parse_time (x : Option String) : Option Time :=
  match x with
  | none => none
  | some raw =>
    if cleanTime raw = "" then none
    else
      match strptimeHM (cleanTime raw) <|> strptimeHdotM (cleanTime raw) <|>
          strptimeHMS (cleanTime raw) with
      | some t => some t
      | none => fracDay (cleanTime raw)

/-! ### Record normalization (src/app.py:49-92) -/

/-- One input row, keyed by the required columns. Library coercions are
pre-applied: `dataLezione` is the `pd.to_datetime(..., dayfirst=True,
errors='coerce').dt.normalize()` result as a day number, `totaleOre` the
`pd.to_numeric(..., errors='coerce')` result. -/
structure RawRecord where
  dataLezione : Option Nat
  totaleOre : Option ℚ
  oraInizioCell : Option String
  oraFineCell : Option String
  sede : Option String
  codiceFiscale : Option String
  classe : Option String
deriving DecidableEq, Repr, Inhabited

/-- A normalized record: the derived `_`-columns of the dataframe. -/
structure NormRecord where
  originalRow : Nat
  date : Option Nat
  startTime : Option Time
  endTime : Option Time
  startDt : Option ℤ
  endDt : Option ℤ
  cfNorm : String
  classKey : String
  sede : Option String
  computedHours : Option ℚ
  declaredHours : Option ℚ
  raw : RawRecord
deriving DecidableEq, Repr, Inhabited

/-- Seconds into the day of a `Time`. -/
def timeToSec (t : Time) : ℤ := (t.hour : ℤ) * 3600 + (t.minute : ℤ) * 60 + (t.second : ℤ)

/-- `.astype(str).str.strip().str.upper()` on a scalar: a missing value
stringifies to `"nan"` and upper-cases to `"NAN"`. -/
def pyStrNorm : Option String → String
  | none => "NAN"
  | some s => pyUpper (pyStrip s)

/-- `Timestamp.combine` of the date with the two times-of-day
(src/app.py:66-69): both raw instants are set only when the date and both
times parsed. -/
def combineDt (r : RawRecord) : Option (ℤ × ℤ) :=
  match r.dataLezione, parse_time r.oraInizioCell, parse_time r.oraFineCell with
  | some d, some st, some et =>
      some ((d : ℤ) * 86400 + timeToSec st, (d : ℤ) * 86400 + timeToSec et)
  | _, _, _ => none

/-- Normalization of one row (the loop body and column assignments of
`normalize_dataframe`, src/app.py:60-90). `idx` is the 0-based dataframe
index; `_original_row = idx + 2`. If the combined end instant is earlier
than the start instant one day (86400 s) is added to the end instant
(src/app.py:72-73). -/
def normalizeRecord (idx : Nat) (r : RawRecord) : NormRecord :=
  { originalRow := idx + 2
    date := r.dataLezione
    startTime := parse_time r.oraInizioCell
    endTime := parse_time r.oraFineCell
    startDt := (combineDt r).map Prod.fst
    endDt := (combineDt r).map fun p => if p.2 < p.1 then p.2 + 86400 else p.2
    cfNorm := pyStrNorm r.codiceFiscale
    classKey := pyStrNorm r.classe
    sede := r.sede
    computedHours := (combineDt r).map fun p =>
      round2 ((((if p.2 < p.1 then p.2 + 86400 else p.2) - p.1 : ℤ) : ℚ) / 3600)
    declaredHours := r.totaleOre.map round2
    raw := r }

/-- The required columns of `normalize_dataframe` (src/app.py:53). -/
def requiredCols : List String :=
  ["DATA LEZIONE", "TOTALE_ORE", "ORA_INIZIO", "ORA_FINE", "SEDE", "Codice Fiscale"]

/-- The input table: the (raw) header and the data rows. -/
structure InputTable where
  columns : List String
  rows : List RawRecord
deriving Repr

/-- The ways the app aborts: the structured missing-columns report
(src/app.py:54-57) and the `st.stop()` on a missing `classe` header
(src/app.py:87-89). -/
inductive AppError
  | missingColumns (cols : List String)
  | classeNotFound
deriving DecidableEq, Repr

/-- The required columns absent from the (stripped) header. -/
def missingRequired (t : InputTable) : List String :=
  requiredCols.filter (fun c => !(t.columns.map pyStrip).contains c)

/-- The first header cell equal to `"classe"` case-insensitively
(src/app.py:82-86). -/
def findClasseCol (t : InputTable) : Option String :=
  (t.columns.map pyStrip).find? (fun c => pyLower (pyStrip c) == "classe")

/-- `normalize_dataframe` (src/app.py:49-92): validate the header, then
normalize every row. A missing required column is reported as the list of
missing names; a missing `classe` header stops the run separately. -/
def normalizeTable (t : InputTable) : Except AppError (List NormRecord) :=
  if missingRequired t ≠ [] then .error (.missingColumns (missingRequired t))
  else if findClasseCol t = none then .error .classeNotFound
  else .ok (t.rows.enum.map fun p => normalizeRecord p.1 p.2)

/-! ### Check 1: hour consistency (src/app.py:95-105) -/

/-- A row of the `check_hours` report: the selected columns of
src/app.py:104-105 (original row number, the original input cells, the
computed hours and the rounded signed difference). -/
structure HourRow where
  rigaExcel : Nat
  dataLezione : Option Nat
  oraInizioCell : Option String
  oraFineCell : Option String
  totaleOre : Option ℚ
  computedHours : Option ℚ
  diffOre : Option ℚ
  codiceFiscale : Option String
deriving DecidableEq, Repr

/-- Both `_computed_hours` and `_declared_hours` are present. -/
def bothPresent (r : NormRecord) : Bool :=
  r.computedHours.isSome && r.declaredHours.isSome

/-- `(a - b).abs()` for one row: `NaN` (`none`) when either value is
absent. -/
def absDiff (r : NormRecord) : Option ℚ :=
  match r.computedHours, r.declaredHours with
  | some c, some d => some |c - d|
  | _, _ => none

/-- pandas coercion of a float cell to boolean under a logical operation
(`fill_bool`): `NaN` is filled with `False`, any other value casts to its
`!= 0` truth value. -/
def floatToBool : Option ℚ → Bool
  | none => false
  | some v => decide (v ≠ 0)

/-- One row of the `check_hours` mismatch mask (src/app.py:97-101). The
source writes `a.notna() & b.notna() & (a - b).abs() > tolerance`; in
Python `&` binds tighter than `>`, so this is
`((a.notna() & b.notna()) & (a - b).abs()) > tolerance`. The left operand
of the second `&` is a boolean column, so pandas coerces the float
difference column to boolean (`floatToBool`) and conjoins; the resulting
boolean mask is then compared elementwise with the float tolerance, `True`
counting as 1 and `False` as 0. The tolerance is therefore never compared
with the difference itself. -/
def hourMask (r : NormRecord) (tolerance : ℚ) : Bool :=
  decide ((if bothPresent r && floatToBool (absDiff r) then (1 : ℚ) else 0) > tolerance)

/-- `errors['Diff (ore)']` (src/app.py:103): `(computed - declared).round(2)`,
`NaN` when either value is absent. -/
def diffOre (r : NormRecord) : Option ℚ :=
  match r.computedHours, r.declaredHours with
  | some c, some d => some (round2 (c - d))
  | _, _ => none

/-- One report row (src/app.py:103-105): the original columns of the
selected row together with the computed hours and the signed difference. -/
def mkHourRow (r : NormRecord) : HourRow :=
  { rigaExcel := r.originalRow
    dataLezione := r.raw.dataLezione
    oraInizioCell := r.raw.oraInizioCell
    oraFineCell := r.raw.oraFineCell
    totaleOre := r.raw.totaleOre
    computedHours := r.computedHours
    diffOre := diffOre r
    codiceFiscale := r.raw.codiceFiscale }

/-- `check_hours` (src/app.py:95-105): the rows selected by the mask, in
input order. -/
def check_hours (records : List NormRecord) (tolerance : ℚ) : List HourRow :=
  (records.filter (fun r => hourMask r tolerance)).map mkHourRow

/-! ### Check 2: duplicates (src/app.py:108-137) -/

/-- Zero-pad to two digits. -/
def pad2 (n : Nat) : String := if n < 10 then "0" ++ toString n else toString n

/-- `t.strftime('%H:%M')`. -/
def fmtHM (t : Time) : String := pad2 t.hour ++ ":" ++ pad2 t.minute

/-- `'_start_str'`: `x.strftime('%H:%M') if isinstance(x, time) else ''`. -/
def startStr (r : NormRecord) : String :=
  match r.startTime with
  | some t => fmtHM t
  | none => ""

/-- `'_end_str'`, as `startStr`. -/
def endStr (r : NormRecord) : String :=
  match r.endTime with
  | some t => fmtHM t
  | none => ""

/-- `str()` of the `_date` cell (`str(Timestamp)` is
`"YYYY-MM-DD 00:00:00"`, `str(NaT)` is `"NaT"`). The embedding encodes the
day by its number; the encoding is injective and distinct from `"NaT"`,
which is all the key construction relies on. -/
def dateKeyStr : Option Nat → String
  | some d => toString d ++ " 00:00:00"
  | none => "NaT"

/-- `str()` of the `SEDE` cell: a missing value stringifies to `"nan"`. -/
def sedeStr : Option String → String
  | some s => s
  | none => "nan"

/-- The composite duplicate key `'|'.join` of
`['_date', '_start_str', '_end_str', 'SEDE', '_cf_norm']` (src/app.py:114-115). -/
def dupKey (r : NormRecord) : String :=
  dateKeyStr r.date ++ "|" ++ startStr r ++ "|" ++ endStr r ++ "|" ++
    sedeStr r.sede ++ "|" ++ r.cfNorm

/-- A row of the duplicate-pairs report. -/
structure DupPair where
  rigaX : Nat
  rigaY : Nat
  dataLezione : String
  codiceFiscale : String
  oraInizioCell : String
  oraFineCell : String
  sede : String
deriving DecidableEq, Repr

/-- `'%Y-%m-%d'` of the `_date` cell, `''` when absent (src/app.py:131);
again the day is encoded by its number. -/
def dateStrOrEmpty : Option Nat → String
  | some d => toString d
  | none => ""

/-- One report row for a pair (src/app.py:128-136); the descriptive fields
come from the first row of the pair. -/
def mkDupPair (r1 r2 : NormRecord) : DupPair :=
  { rigaX := r1.originalRow
    rigaY := r2.originalRow
    dataLezione := dateStrOrEmpty r1.date
    codiceFiscale := r1.cfNorm
    oraInizioCell := startStr r1
    oraFineCell := endStr r1
    sede := sedeStr r1.sede }

/-- `itertools.combinations(rows, 2)` over an already-sorted group. -/
def pairsOf : List NormRecord → List DupPair
  | [] => []
  | r :: rs => rs.map (mkDupPair r) ++ pairsOf rs

/-- Insert into a sorted list (used by `pySort`). -/
def pyInsert {α : Type} (le : α → α → Bool) (a : α) : List α → List α
  | [] => [a]
  | b :: l => if le a b then a :: b :: l else b :: pyInsert le a l

/-- A structural comparison sort, used to model every `sort_values` /
sorted-`groupby` of the source. Where the sort key is unique (row numbers)
any comparison sort produces the same list; where it is not, the source's
library sort fixes no particular order among ties either. -/
def pySort {α : Type} (le : α → α → Bool) : List α → List α
  | [] => []
  | a :: l => pyInsert le a (pySort le l)

/-- Lexicographic strict comparison of character lists by code point —
how Python compares the key strings. -/
def charListLt : List Char → List Char → Bool
  | _, [] => false
  | [], _ :: _ => true
  | a :: as, b :: bs => if a < b then true else if b < a then false else charListLt as bs

/-- String `≤` by code points. -/
def strLe (a b : String) : Bool := !(charListLt b.toList a.toList)

/-- `sort_values('_original_row')`. The row numbers are pairwise distinct in
any normalized batch, so any comparison sort produces the same list. -/
def sortByRow (l : List NormRecord) : List NormRecord :=
  pySort (fun a b => a.originalRow ≤ b.originalRow) l

/-- `df_work.duplicated(subset='_key', keep=False)`: the rows whose key
occurs at least twice. -/
def dupCandidates (records : List NormRecord) : List NormRecord :=
  records.filter fun r => 2 ≤ records.countP (fun q => dupKey q == dupKey r)

/-- The members of one duplicate group. -/
def dupGroup (records : List NormRecord) (k : String) : List NormRecord :=
  (dupCandidates records).filter (fun r => dupKey r == k)

/-- The distinct keys of the duplicate candidates in ascending order
(`groupby('_key')` iterates groups in sorted key order). -/
def dupKeys (records : List NormRecord) : List String :=
  pySort strLe (((dupCandidates records).map dupKey).dedup)

/-- The pairs emitted for one group (src/app.py:123-136): groups of fewer
than two members are skipped, the others are sorted by `_original_row` and
every 2-combination is emitted. -/
def dupPairsForKey (records : List NormRecord) (k : String) : List DupPair :=
  if (dupGroup records k).length < 2 then []
  else pairsOf (sortByRow (dupGroup records k))

/-- `check_duplicates` (src/app.py:108-137). -/
def check_duplicates (records : List NormRecord) : List DupPair :=
  (dupKeys records).flatMap (dupPairsForKey records)

/-! ### Check 3: overlaps (src/app.py:140-174) -/

/-- `'_date_str'`: `strftime('%Y-%m-%d')`, day encoded by its number
(`"NaT"` cannot occur for rows with both instants present, which are the
only ones this is applied to). -/
def dateStr : Option Nat → String
  | some d => toString d
  | none => "NaT"

/-- The participating rows: both instants present and a non-empty grouping
key (src/app.py:145-148). -/
def overlapWork (records : List NormRecord) (key : NormRecord → String) :
    List NormRecord :=
  (records.filter fun r => r.startDt.isSome && r.endDt.isSome).filter
    fun r => 0 < (key r).length

/-- Lexicographic `≤` on (date string, key string) pairs, as `groupby`
orders its groups. -/
def tagLe (a b : String × String) : Bool :=
  if a.1 = b.1 then strLe a.2 b.2 else charListLt a.1.toList b.1.toList

/-- The distinct (date, key) partition tags in ascending order. -/
def overlapTags (records : List NormRecord) (key : NormRecord → String) :
    List (String × String) :=
  pySort tagLe (((overlapWork records key).map fun r => (dateStr r.date, key r)).dedup)

/-- The members of one partition, in input order. -/
def overlapGroup (records : List NormRecord) (key : NormRecord → String)
    (tag : String × String) : List NormRecord :=
  (overlapWork records key).filter fun r => (dateStr r.date, key r) = tag

/-- `g.sort_values('_start_dt')`. The source uses the library's default
(unstable) quicksort, which fixes no particular order among rows with equal
start instants; the model uses a (stable) insertion sort on the same key. -/
def sortByStart (l : List NormRecord) : List NormRecord :=
  pySort (fun a b => a.startDt.getD 0 ≤ b.startDt.getD 0) l

/-- All index pairs `(i, j)` with `i < j < n`, in the enumeration order of
the two nested loops (src/app.py:153-154). -/
def pairIdx (n : Nat) : List (Nat × Nat) :=
  (List.range n).flatMap fun i => (List.range' (i + 1) (n - (i + 1))).map fun j => (i, j)

/-- A placeholder record for out-of-range list access (never reached on the
index pairs actually enumerated). -/
def dummyRec : NormRecord := default

/-- The index pairs reported for one sorted partition: `(i, j)` with
`i < j` and `start(j) < end(i)` (src/app.py:157). -/
def overlapIdxPairs (g : List NormRecord) : List (Nat × Nat) :=
  (pairIdx g.length).filter fun p =>
    decide ((g.getD p.2 dummyRec).startDt.getD 0 < (g.getD p.1 dummyRec).endDt.getD 0)

/-- A row of the overlaps report. -/
structure OverlapRow where
  dataLezione : String
  chiave : String
  rigaX : Nat
  rigaY : Nat
  oraInizioX : String
  oraFineX : String
  oraInizioY : String
  oraFineY : String
deriving DecidableEq, Repr

/-- `strftime('%H:%M')` of an instant (time-of-day part). -/
def fmtDt (dt : ℤ) : String :=
  let s := (dt % 86400).toNat
  pad2 (s / 3600) ++ ":" ++ pad2 ((s % 3600) / 60)

/-- One overlap report row (src/app.py:158-167). -/
def mkOverlapRow (tag : String × String) (r1 r2 : NormRecord) : OverlapRow :=
  { dataLezione := tag.1
    chiave := tag.2
    rigaX := r1.originalRow
    rigaY := r2.originalRow
    oraInizioX := fmtDt (r1.startDt.getD 0)
    oraFineX := fmtDt (r1.endDt.getD 0)
    oraInizioY := fmtDt (r2.startDt.getD 0)
    oraFineY := fmtDt (r2.endDt.getD 0) }

/-- The report rows of one sorted partition. -/
def overlapRowsOfGroup (tag : String × String) (g : List NormRecord) :
    List OverlapRow :=
  (overlapIdxPairs g).map fun p => mkOverlapRow tag (g.getD p.1 dummyRec) (g.getD p.2 dummyRec)

/-- `_check_overlaps_by` (src/app.py:140-168), parameterized by the grouping
key. -/
def _check_overlaps_by (records : List NormRecord) (key : NormRecord → String) :
    List OverlapRow :=
  (overlapTags records key).flatMap fun tag =>
    overlapRowsOfGroup tag (sortByStart (overlapGroup records key tag))

/-- `check_overlaps_cf` (src/app.py:170-171). -/
def check_overlaps_cf (records : List NormRecord) : List OverlapRow :=
  _check_overlaps_by records (fun r => r.cfNorm)

/-- `check_overlaps_class` (src/app.py:173-174). -/
def check_overlaps_class (records : List NormRecord) : List OverlapRow :=
  _check_overlaps_by records (fun r => r.classKey)

/-- The batch run of `main` (src/app.py:246-250): normalize, then the four
checks. -/
def pipeline (t : InputTable) (tolerance : ℚ) :
    Except AppError (List HourRow × List DupPair × List OverlapRow × List OverlapRow) :=
  match normalizeTable t with
  | .error e => .error e
  | .ok recs =>
      .ok (check_hours recs tolerance, check_duplicates recs, check_overlaps_cf recs,
        check_overlaps_class recs)

/-! ### Concrete instances used by the theorems -/

/-- A header carrying all six required columns and `classe`. -/
def fullHeader : List String := requiredCols ++ ["classe"]

/-- Header-only input: zero data rows. -/
def emptyTable : InputTable := ⟨fullHeader, []⟩

/-- A header with the six required columns but no `classe` column. -/
def noClasseTable : InputTable := ⟨requiredCols, []⟩

/-- A header missing the required `TOTALE_ORE` column. -/
def missingTotTable : InputTable :=
  ⟨["DATA LEZIONE", "ORA_INIZIO", "ORA_FINE", "SEDE", "Codice Fiscale", "classe"], []⟩

/-- Overnight record: start `23:30`, end `00:15`, same date. -/
def overnightRaw : RawRecord :=
  ⟨some 0, none, some "23:30", some "00:15", some "A", some "CF1", some "1A"⟩

/-- A record whose declared hours are `2.0` and whose interval is
`09:00`-`11:01` (2h01m, i.e. computed `2.02` after 2-decimal rounding). -/
def hoursRaw : RawRecord :=
  ⟨some 0, some 2, some "09:00", some "11:01", some "A", some "CF1", some "1A"⟩

/-- The report row `check_hours` emits for `hoursRaw` (at any tolerance
below 1): signed difference `0.02`. -/
def hoursRowC2 : HourRow :=
  ⟨2, some 0, some "09:00", some "11:01", some 2, some (101 / 50), some (1 / 50), some "CF1"⟩

/-- Interval A = `09:00`-`10:00`. -/
def rawA : RawRecord :=
  ⟨some 0, some 1, some "09:00", some "10:00", some "AULA", some "CF1", some "1A"⟩

/-- Interval B = `09:30`-`10:30`. -/
def rawB : RawRecord :=
  ⟨some 0, some 1, some "09:30", some "10:30", some "AULA", some "CF1", some "1A"⟩

/-- Interval C = `10:00`-`11:00`. -/
def rawC : RawRecord :=
  ⟨some 0, some 1, some "10:00", some "11:00", some "AULA", some "CF1", some "1A"⟩

/-- Three intervals A, B, C on the same date for the same teacher. -/
def abcTable : InputTable := ⟨fullHeader, [rawA, rawB, rawC]⟩

/-- The reported A-B overlap row. -/
def rowAB : OverlapRow := ⟨"0", "CF1", 2, 3, "09:00", "10:00", "09:30", "10:30"⟩

/-- The reported B-C overlap row. -/
def rowBC : OverlapRow := ⟨"0", "CF1", 3, 4, "09:30", "10:30", "10:00", "11:00"⟩

/-- One lesson record, to be tripled for the duplicate test. -/
def rawD : RawRecord :=
  ⟨some 0, some 2, some "09:00", some "11:00", some "AULA 1", some "cf1 ", some "1A"⟩

/-- Three identical records. -/
def threeTable : InputTable := ⟨fullHeader, [rawD, rawD, rawD]⟩

/-- The normalized rows of `threeTable`. -/
def threeRecs : List NormRecord := threeTable.rows.enum.map fun p => normalizeRecord p.1 p.2

/-- The composite key the three identical records share. -/
def threeKey : String := dupKey (normalizeRecord 0 rawD)

/-- The three expected duplicate pair rows. -/
def pairD1 : DupPair := ⟨2, 3, "0", "CF1", "09:00", "11:00", "AULA 1"⟩

/-- Second expected pair. -/
def pairD2 : DupPair := ⟨2, 4, "0", "CF1", "09:00", "11:00", "AULA 1"⟩

/-- Third expected pair. -/
def pairD3 : DupPair := ⟨3, 4, "0", "CF1", "09:00", "11:00", "AULA 1"⟩

/-- A record whose teacher fiscal code, class and location cells are all
missing. -/
def noCfRaw : RawRecord := ⟨some 0, none, some "09:00", some "11:00", none, none, none⟩

/-! ### Helper lemmas -/

theorem parseField_le {mx v : Nat} {cs : List Char} (h : parseField mx cs = some v) : v ≤ mx := by
  unfold parseField at h
  split at h
  · split at h
    · cases h; assumption
    · cases h
  · cases h

/-- Validity of a `Time`: what the `datetime.time` constructor enforces. -/
def ValidTime (t : Time) : Prop := t.hour < 24 ∧ t.minute < 60 ∧ t.second < 60

theorem mkTime2_valid {oh om : Option Nat} {t : Time}
    (hh : ∀ v, oh = some v → v ≤ 23) (hm : ∀ v, om = some v → v ≤ 59)
    (h : (oh.bind fun hv => om.bind fun mv => some (Time.mk hv mv 0)) = some t) :
    ValidTime t := by
  cases oh with
  | none => cases h
  | some hv =>
    cases om with
    | none => cases h
    | some mv =>
      have h1 := hh hv rfl
      have h2 := hm mv rfl
      cases h
      show hv < 24 ∧ mv < 60 ∧ (0 : Nat) < 60
      omega

theorem mkTime3_valid {oh om os : Option Nat} {t : Time}
    (hh : ∀ v, oh = some v → v ≤ 23) (hm : ∀ v, om = some v → v ≤ 59)
    (hs : ∀ v, os = some v → v ≤ 59)
    (h : (oh.bind fun hv => om.bind fun mv => os.bind fun sv =>
        some (Time.mk hv mv sv)) = some t) :
    ValidTime t := by
  cases oh with
  | none => cases h
  | some hv =>
    cases om with
    | none => cases h
    | some mv =>
      cases os with
      | none => cases h
      | some sv =>
        have h1 := hh hv rfl
        have h2 := hm mv rfl
        have h3 := hs sv rfl
        cases h
        show hv < 24 ∧ mv < 60 ∧ sv < 60
        omega

theorem strptimeHM_valid {s : String} {t : Time} (h : strptimeHM s = some t) :
    ValidTime t := by
  unfold strptimeHM at h
  split at h
  · exact mkTime2_valid (fun v hv => parseField_le hv) (fun v hv => parseField_le hv) h
  · cases h

theorem strptimeHdotM_valid {s : String} {t : Time} (h : strptimeHdotM s = some t) :
    ValidTime t := by
  unfold strptimeHdotM at h
  split at h
  · exact mkTime2_valid (fun v hv => parseField_le hv) (fun v hv => parseField_le hv) h
  · cases h

theorem strptimeHMS_valid {s : String} {t : Time} (h : strptimeHMS s = some t) :
    ValidTime t := by
  unfold strptimeHMS at h
  split at h
  · exact mkTime3_valid (fun v hv => parseField_le hv) (fun v hv => parseField_le hv)
      (fun v hv => parseField_le hv) h
  · cases h

theorem fracDay_valid {s : String} {t : Time} (h : fracDay s = some t) :
    ValidTime t := by
  unfold fracDay at h
  cases hf : pyFloat s with
  | none => rw [hf] at h; cases h
  | some f =>
    rw [hf] at h
    dsimp only at h
    split at h
    · split at h
      next hm =>
        cases h
        have h1 : (0 : ℤ) ≤ fracHour f := Int.emod_nonneg _ (by norm_num)
        have h2 : fracHour f < 24 := Int.emod_lt_of_pos _ (by norm_num)
        show (fracHour f).toNat < 24 ∧ (fracMin f).toNat < 60 ∧ (0 : Nat) < 60
        omega
      next => cases h
    · cases h

theorem parse_time_valid {x : Option String} {t : Time} (h : parse_time x = some t) :
    ValidTime t := by
  cases x with
  | none => cases h
  | some raw =>
    have h' : (if cleanTime raw = "" then none
        else match strptimeHM (cleanTime raw) <|> strptimeHdotM (cleanTime raw) <|>
            strptimeHMS (cleanTime raw) with
          | some t => some t
          | none => fracDay (cleanTime raw)) = some t := h
    clear h
    rename' h' => h
    split at h
    · cases h
    · cases h1 : strptimeHM (cleanTime raw) with
      | some u =>
        rw [h1, Option.some_orElse] at h
        dsimp only at h
        cases h
        exact strptimeHM_valid h1
      | none =>
        rw [h1, Option.none_orElse] at h
        cases h2 : strptimeHdotM (cleanTime raw) with
        | some u =>
          rw [h2, Option.some_orElse] at h
          dsimp only at h
          cases h
          exact strptimeHdotM_valid h2
        | none =>
          rw [h2, Option.none_orElse] at h
          cases h3 : strptimeHMS (cleanTime raw) with
          | some u =>
            rw [h3] at h
            dsimp only at h
            cases h
            exact strptimeHMS_valid h3
          | none =>
            rw [h3] at h
            dsimp only at h
            exact fracDay_valid h

theorem timeToSec_nonneg (t : Time) : 0 ≤ timeToSec t := by
  unfold timeToSec; positivity

theorem timeToSec_lt_day {t : Time} (h : ValidTime t) : timeToSec t < 86400 := by
  obtain ⟨h1, h2, h3⟩ := h
  unfold timeToSec
  omega

theorem mem_pairIdx {n i j : Nat} : (i, j) ∈ pairIdx n ↔ i < j ∧ j < n := by
  simp only [pairIdx, List.mem_flatMap, List.mem_map, List.mem_range]
  constructor
  · rintro ⟨a, ha, b, hb, hab⟩
    obtain ⟨rfl, rfl⟩ : a = i ∧ b = j := by
      cases hab; exact ⟨rfl, rfl⟩
    obtain ⟨k, hk, rfl⟩ := List.mem_range'.1 hb
    omega
  · rintro ⟨hij, hjn⟩
    exact ⟨i, by omega, j, List.mem_range'.2 ⟨j - (i + 1), by omega, by omega⟩, rfl⟩

theorem pairsOf_length (l : List NormRecord) : (pairsOf l).length = l.length.choose 2 := by
  induction l with
  | nil => simp [pairsOf]
  | cons r rs ih =>
    simp [pairsOf, ih, Nat.choose_succ_succ, Nat.choose_one_right, Nat.add_comm]

theorem pairsOf_lt {l : List NormRecord}
    (h : l.Pairwise (fun a b => a.originalRow < b.originalRow)) :
    ∀ p ∈ pairsOf l, p.rigaX < p.rigaY := by
  induction l with
  | nil => simp [pairsOf]
  | cons r rs ih =>
    rcases List.pairwise_cons.1 h with ⟨hr, hrs⟩
    intro p hp
    rcases List.mem_append.1 hp with hp | hp
    · rcases List.mem_map.1 hp with ⟨b, hb, rfl⟩
      simpa [mkDupPair] using hr b hb
    · exact ih hrs p hp

theorem pyInsert_perm {α : Type} (le : α → α → Bool) (a : α) (l : List α) :
    List.Perm (pyInsert le a l) (a :: l) := by
  induction l with
  | nil => exact List.Perm.refl _
  | cons b l ih =>
    unfold pyInsert
    split
    · exact List.Perm.refl _
    · exact (ih.cons b).trans (List.Perm.swap a b l)

theorem pySort_perm {α : Type} (le : α → α → Bool) (l : List α) :
    List.Perm (pySort le l) l := by
  induction l with
  | nil => exact List.Perm.refl _
  | cons a l ih => exact (pyInsert_perm le a (pySort le l)).trans (ih.cons a)

theorem pyInsert_pairwise {α : Type} {le : α → α → Bool}
    (htrans : ∀ a b c, le a b = true → le b c = true → le a c = true)
    (htotal : ∀ a b, le a b = true ∨ le b a = true) (a : α) :
    ∀ {l : List α}, l.Pairwise (fun x y => le x y = true) →
      (pyInsert le a l).Pairwise (fun x y => le x y = true) := by
  intro l
  induction l with
  | nil => intro _; exact List.pairwise_singleton _ _
  | cons b l ih =>
    intro hl
    rcases List.pairwise_cons.1 hl with ⟨hb, hl'⟩
    unfold pyInsert
    split
    next hab =>
      refine List.pairwise_cons.2 ⟨?_, hl⟩
      intro x hx
      rcases List.mem_cons.1 hx with rfl | hx
      · exact hab
      · exact htrans a b x hab (hb x hx)
    next hab =>
      have hba : le b a = true := by
        rcases htotal a b with h | h
        · exact absurd h hab
        · exact h
      refine List.pairwise_cons.2 ⟨?_, ih hl'⟩
      intro x hx
      have hx' : x = a ∨ x ∈ l := by
        simpa using (pyInsert_perm le a l).mem_iff.1 hx
      rcases hx' with rfl | hx'
      · exact hba
      · exact hb x hx'

theorem pySort_pairwise {α : Type} {le : α → α → Bool}
    (htrans : ∀ a b c, le a b = true → le b c = true → le a c = true)
    (htotal : ∀ a b, le a b = true ∨ le b a = true) (l : List α) :
    (pySort le l).Pairwise (fun x y => le x y = true) := by
  induction l with
  | nil => exact List.Pairwise.nil
  | cons a l ih => exact pyInsert_pairwise htrans htotal a ih

theorem dupGroup_sorted_lt (records : List NormRecord) (k : String)
    (hdist : records.Pairwise (fun a b => a.originalRow ≠ b.originalRow)) :
    (sortByRow (dupGroup records k)).Pairwise
      (fun a b => a.originalRow < b.originalRow) := by
  have hsub : List.Sublist (dupGroup records k) records :=
    (List.filter_sublist _).trans (List.filter_sublist _)
  have hne : (dupGroup records k).Pairwise (fun a b => a.originalRow ≠ b.originalRow) :=
    List.Pairwise.sublist hsub hdist
  have hperm : List.Perm (sortByRow (dupGroup records k)) (dupGroup records k) :=
    pySort_perm _ _
  have hne' : (sortByRow (dupGroup records k)).Pairwise
      (fun a b => a.originalRow ≠ b.originalRow) :=
    (hperm.pairwise_iff fun hxy => hxy.symm).2 hne
  have hsorted : (sortByRow (dupGroup records k)).Pairwise
      (fun a b => decide (a.originalRow ≤ b.originalRow) = true) :=
    pySort_pairwise
      (by intro a b c hab hbc; simp only [decide_eq_true_eq] at *; omega)
      (by
        intro a b
        rcases Nat.le_total a.originalRow b.originalRow with h | h
        · exact Or.inl (decide_eq_true h)
        · exact Or.inr (decide_eq_true h))
      (dupGroup records k)
  have hsorted' : (sortByRow (dupGroup records k)).Pairwise
      (fun a b => a.originalRow ≤ b.originalRow) := by
    refine hsorted.imp ?_
    intro a b hab
    simpa using hab
  refine (hsorted'.and hne').imp ?_
  rintro a b ⟨hle, hne2⟩
  omega

theorem pyRound_low {q : ℚ} {n : ℤ} (h1 : (n : ℚ) ≤ q) (h2 : q - n < 1 / 2) :
    pyRound q = n := by
  have hfl : ⌊q⌋ = n := by
    rw [Int.floor_eq_iff]
    refine ⟨h1, ?_⟩
    linarith
  unfold pyRound
  rw [hfl, if_neg (by linarith), if_pos h2]

theorem pyRound_high {q : ℚ} {n : ℤ} (h1 : (n : ℚ) ≤ q) (h2 : 1 / 2 < q - n)
    (h3 : q < (n : ℚ) + 1) : pyRound q = n + 1 := by
  have hfl : ⌊q⌋ = n := by
    rw [Int.floor_eq_iff]
    refine ⟨h1, ?_⟩
    linarith
  unfold pyRound
  rw [hfl, if_pos h2]

theorem round2_2700 : round2 (((2700 : ℤ) : ℚ) / 3600) = 3 / 4 := by
  unfold round2
  have h := pyRound_low (show ((75 : ℤ) : ℚ) ≤ ((2700 : ℤ) : ℚ) / 3600 * 100 by norm_num)
    (show ((2700 : ℤ) : ℚ) / 3600 * 100 - ((75 : ℤ) : ℚ) < 1 / 2 by norm_num)
  rw [h]
  norm_num

theorem round2_7260 : round2 (((7260 : ℤ) : ℚ) / 3600) = 101 / 50 := by
  unfold round2
  have h := pyRound_high (show ((201 : ℤ) : ℚ) ≤ ((7260 : ℤ) : ℚ) / 3600 * 100 by norm_num)
    (show (1 : ℚ) / 2 < ((7260 : ℤ) : ℚ) / 3600 * 100 - ((201 : ℤ) : ℚ) by norm_num)
    (show ((7260 : ℤ) : ℚ) / 3600 * 100 < ((201 : ℤ) : ℚ) + 1 by norm_num)
  rw [h]
  norm_num

theorem round2_two : round2 (2 : ℚ) = 2 := by
  unfold round2
  have h := pyRound_low (show ((200 : ℤ) : ℚ) ≤ (2 : ℚ) * 100 by norm_num)
    (show (2 : ℚ) * 100 - ((200 : ℤ) : ℚ) < 1 / 2 by norm_num)
  rw [h]
  norm_num

theorem round2_diff : round2 ((101 / 50 : ℚ) - 2) = 1 / 50 := by
  unfold round2
  have h := pyRound_low (show ((2 : ℤ) : ℚ) ≤ ((101 / 50 : ℚ) - 2) * 100 by norm_num)
    (show ((101 / 50 : ℚ) - 2) * 100 - ((2 : ℤ) : ℚ) < 1 / 2 by norm_num)
  rw [h]
  norm_num

theorem pyFloat_415 : pyFloat "415e-4" = some (83 / 2000) := by
  have raw : pyFloat "415e-4" =
      some (((digitsToNat ['4', '1', '5'] : ℕ) : ℚ) *
        pow10 (-((digitsToNat ['4'] : ℕ) : ℤ))) := rfl
  have hd : (digitsToNat ['4', '1', '5'] : ℕ) = 415 := by decide
  have he : (digitsToNat ['4'] : ℕ) = 4 := by decide
  rw [raw, hd, he]
  have hp : pow10 (-((4 : ℕ) : ℤ)) = 1 / 10000 := by
    unfold pow10
    rw [if_neg (by norm_num)]
    rw [show (-(-((4 : ℕ) : ℤ))).toNat = 4 from by decide]
    norm_num
  rw [hp]
  norm_num

theorem fracMin_415 : fracMin (83 / 2000) = 60 := by
  unfold fracMin fracMinutes
  rw [show (83 / 2000 : ℚ) * 24 * 60 = 1494 / 25 from by norm_num]
  rw [show ⌊(1494 / 25 : ℚ) / 60⌋ = 0 from by rw [Int.floor_eq_iff]; norm_num]
  rw [show (1494 / 25 : ℚ) - 60 * ((0 : ℤ) : ℚ) = 1494 / 25 from by norm_num]
  have h := pyRound_high (show ((59 : ℤ) : ℚ) ≤ 1494 / 25 by norm_num)
    (show (1 : ℚ) / 2 < 1494 / 25 - ((59 : ℤ) : ℚ) by norm_num)
    (show (1494 / 25 : ℚ) < ((59 : ℤ) : ℚ) + 1 by norm_num)
  rw [h]
  decide

theorem fracDay_415 : fracDay "415e-4" = none := by
  unfold fracDay
  rw [pyFloat_415]
  dsimp only
  rw [if_pos (by constructor <;> norm_num)]
  rw [fracMin_415, if_neg (by decide)]

theorem parse_time_415 : parse_time (some "415e-4") = none := by
  have hstep : parse_time (some "415e-4") = fracDay (cleanTime "415e-4") := rfl
  rw [hstep, show cleanTime "415e-4" = "415e-4" from rfl, fracDay_415]

/-! ### Claim theorems -/

/-- Claim C1. The spec says `parse_time("0.5")` is interpreted as an Excel
fractional day and yields 12:00 (and that any numeric `f` with `0 ≤ f < 2`
failing the strict clock parse is so interpreted). In the code the
dot-to-colon substitution makes `"0.5"` match the strict `%H:%M` parse as
00:05, and a dotted fraction such as `"0.75"` (whose substituted form
`"0:75"` fails both the clock parse and `float`) yields `None` instead of
the fractional-day 18:00. -/
theorem parse_time_excel_fraction_bug :
    parse_time (some "0.5") = some ⟨0, 5, 0⟩ ∧ parse_time (some "0.75") = none := by
  constructor <;> rfl

/-- Claim C2. The spec says a record is flagged iff both hour values are
present and their absolute difference exceeds the tolerance — in
particular the declared 2.0 / computed 2.02 record is no mismatch at
tolerance 0.02 and a mismatch with signed difference 0.02 at tolerance
0.01. In the code the mask `a & b & diff > tol` parenthesizes as
`((a & b) & diff) > tol`; pandas coerces the float difference column to
boolean under the `&`, and that boolean mask (0 or 1) is what gets
compared with the tolerance. The record is therefore flagged at both
tolerances — with the diff column showing 0.02 — and the tolerance never
takes part in the comparison the spec describes. -/
theorem check_hours_flags_at_both_tolerances :
    (normalizeRecord 0 hoursRaw).computedHours = some (101 / 50) ∧
    (normalizeRecord 0 hoursRaw).declaredHours = some 2 ∧
    check_hours [normalizeRecord 0 hoursRaw] (2 / 100) = [hoursRowC2] ∧
    check_hours [normalizeRecord 0 hoursRaw] (1 / 100) = [hoursRowC2] := by
  have hcomp : (normalizeRecord 0 hoursRaw).computedHours =
      some (round2 (((7260 : ℤ) : ℚ) / 3600)) := rfl
  rw [round2_7260] at hcomp
  have hdecl : (normalizeRecord 0 hoursRaw).declaredHours = some (round2 (2 : ℚ)) := rfl
  rw [round2_two] at hdecl
  have habs : absDiff (normalizeRecord 0 hoursRaw) = some (1 / 50) := by
    unfold absDiff
    rw [hcomp, hdecl]
    dsimp only
    rw [abs_of_nonneg (by norm_num : (0 : ℚ) ≤ 101 / 50 - 2)]
    rw [show (101 / 50 : ℚ) - 2 = 1 / 50 from by norm_num]
  have hcond : (bothPresent (normalizeRecord 0 hoursRaw) &&
      floatToBool (absDiff (normalizeRecord 0 hoursRaw))) = true := by
    rw [habs]
    show (true && floatToBool (some (1 / 50))) = true
    rw [Bool.true_and]
    simp only [floatToBool, decide_eq_true_eq]
    norm_num
  have hmask : ∀ tol : ℚ, tol < 1 → hourMask (normalizeRecord 0 hoursRaw) tol = true := by
    intro tol htol
    unfold hourMask
    rw [hcond]
    simp only [if_true, decide_eq_true_eq]
    linarith
  have hrow : mkHourRow (normalizeRecord 0 hoursRaw) = hoursRowC2 := by
    unfold mkHourRow diffOre
    rw [hcomp, hdecl]
    dsimp only
    rw [round2_diff]
    rfl
  have hrun : ∀ tol : ℚ, tol < 1 →
      check_hours [normalizeRecord 0 hoursRaw] tol = [hoursRowC2] := by
    intro tol htol
    unfold check_hours
    rw [List.filter_cons]
    rw [hmask tol htol]
    simp only [if_true, List.filter_nil, List.map_cons, List.map_nil, hrow]
  exact ⟨hcomp, hdecl, hrun (2 / 100) (by norm_num), hrun (1 / 100) (by norm_num)⟩

/-- Claim C3. Within a partition sorted by start instant, the pair `(i, j)`
with `i < j` is reported as an overlap iff `start(j) < end(i)` (half-open
semantics), and for A = 09:00-10:00, B = 09:30-10:30, C = 10:00-11:00 on one
date and teacher exactly the pairs A-B and B-C are reported, not A-C. -/
theorem overlap_reported_iff :
    (∀ (g : List NormRecord) (i j : Nat),
        (i, j) ∈ overlapIdxPairs g ↔
          i < j ∧ j < g.length ∧
            (g.getD j dummyRec).startDt.getD 0 < (g.getD i dummyRec).endDt.getD 0) ∧
    (normalizeTable abcTable).map check_overlaps_cf = .ok [rowAB, rowBC] := by
  constructor
  · intro g i j
    simp only [overlapIdxPairs, List.mem_filter, mem_pairIdx, decide_eq_true_eq, and_assoc]
  · rfl

/-- Claim C4. Post-normalization, whenever both instants are present the end
instant is not earlier than the start instant (the overnight rule adds
exactly one day when needed); and the start 23:30 / end 00:15 record
computes 0.75 hours. -/
theorem end_not_before_start :
    (∀ (idx : Nat) (r : RawRecord) (s e : ℤ), (normalizeRecord idx r).startDt = some s →
        (normalizeRecord idx r).endDt = some e → s ≤ e) ∧
    (normalizeRecord 0 overnightRaw).computedHours = some (3 / 4) := by
  constructor
  · intro idx r s e hs he
    have hs' : (combineDt r).map Prod.fst = some s := hs
    have he' : (combineDt r).map (fun p => if p.2 < p.1 then p.2 + 86400 else p.2) = some e := he
    unfold combineDt at hs' he'
    cases hd : r.dataLezione with
    | none => simp [hd] at hs'
    | some d =>
      cases hst : parse_time r.oraInizioCell with
      | none => simp [hd, hst] at hs'
      | some st =>
        cases het : parse_time r.oraFineCell with
        | none => simp [hd, hst, het] at hs'
        | some et =>
          simp only [hd, hst, het, Option.map_some', Option.some.injEq] at hs' he'
          have l1 : 0 ≤ timeToSec st := timeToSec_nonneg st
          have l2 : timeToSec st < 86400 := timeToSec_lt_day (parse_time_valid hst)
          have l3 : 0 ≤ timeToSec et := timeToSec_nonneg et
          have l4 : timeToSec et < 86400 := timeToSec_lt_day (parse_time_valid het)
          split at he' <;> omega
  · have h0 : (normalizeRecord 0 overnightRaw).computedHours =
        some (round2 (((2700 : ℤ) : ℚ) / 3600)) := rfl
    rw [h0, round2_2700]

/-- Witness for C4: the concrete overnight record, both instants present and
in order. -/
theorem end_not_before_start_witness :
    (normalizeRecord 0 overnightRaw).startDt = some 84600 ∧
    (normalizeRecord 0 overnightRaw).endDt = some 87300 ∧ (84600 : ℤ) ≤ 87300 :=
  ⟨rfl, rfl, end_not_before_start.1 0 overnightRaw 84600 87300 rfl rfl⟩

/-- Claim C5. Every duplicate group with `k ≥ 2` members (the records are
assumed to carry pairwise-distinct row numbers, as normalization guarantees)
yields exactly `k(k-1)/2` pair rows, each with the smaller row number first
(hence never pairing a row with itself); and three identical records yield
exactly the three expected pairs. -/
theorem duplicate_group_pairs (records : List NormRecord) (k : String)
    (hdist : records.Pairwise (fun a b => a.originalRow ≠ b.originalRow))
    (hk : 2 ≤ (dupGroup records k).length) :
    ((dupPairsForKey records k).length =
        (dupGroup records k).length * ((dupGroup records k).length - 1) / 2 ∧
      ∀ p ∈ dupPairsForKey records k, p.rigaX < p.rigaY) ∧
    (normalizeTable threeTable).map check_duplicates = .ok [pairD1, pairD2, pairD3] := by
  constructor
  · have hpk : dupPairsForKey records k = pairsOf (sortByRow (dupGroup records k)) := by
      unfold dupPairsForKey
      rw [if_neg (by omega)]
    constructor
    · rw [hpk, pairsOf_length]
      have hlen : (sortByRow (dupGroup records k)).length = (dupGroup records k).length :=
        (pySort_perm _ _).length_eq
      rw [hlen, Nat.choose_two_right]
    · rw [hpk]
      exact pairsOf_lt (dupGroup_sorted_lt records k hdist)
  · rfl

/-- Witness for C5: the three identical records, with their shared key. -/
theorem duplicate_group_pairs_witness :
    (dupPairsForKey threeRecs threeKey).length =
      (dupGroup threeRecs threeKey).length *
        ((dupGroup threeRecs threeKey).length - 1) / 2 ∧
    ∀ p ∈ dupPairsForKey threeRecs threeKey, p.rigaX < p.rigaY :=
  (duplicate_group_pairs threeRecs threeKey (by decide) (by decide)).1

/-- Claim C6, counterexample. With all six required columns present but no
`classe` header, normalization still halts the run, with an error distinct
from the structured missing-columns list — so the class label column is not
optional and a missing required column is not the only fatal condition. -/
theorem classe_optional_counterexample :
    normalizeTable noClasseTable = .error .classeNotFound ∧
    ∀ l, AppError.classeNotFound ≠ AppError.missingColumns l :=
  ⟨rfl, fun _ h => AppError.noConfusion h⟩

/-- Claim C6 as amended: the six listed columns are validated first and
their absence is surfaced as the structured list of missing names, but the
`classe` header is effectively required as well — normalization succeeds iff
the six required columns are present and some header matches `classe`
case-insensitively. -/
theorem classe_also_required (t : InputTable) :
    ((∃ rs, normalizeTable t = .ok rs) ↔
      missingRequired t = [] ∧ findClasseCol t ≠ none) ∧
    (missingRequired t ≠ [] →
      normalizeTable t = .error (.missingColumns (missingRequired t))) := by
  constructor
  · constructor
    · rintro ⟨rs, h⟩
      unfold normalizeTable at h
      split at h
      next => cases h
      next hmiss =>
        split at h
        next => cases h
        next hcl => exact ⟨not_not.mp hmiss, hcl⟩
    · rintro ⟨h1, h2⟩
      exact ⟨_, by unfold normalizeTable; rw [if_neg (by simp [h1]), if_neg h2]⟩
  · intro h
    unfold normalizeTable
    rw [if_pos h]

/-- Witness for C6: a complete header normalizes successfully; a header
without `TOTALE_ORE` fails with exactly that missing-columns list. -/
theorem classe_also_required_witness :
    normalizeTable missingTotTable = .error (.missingColumns ["TOTALE_ORE"]) :=
  (classe_also_required missingTotTable).2 (by decide)

/-- Claim C8. A header-only input (zero data rows) yields four empty report
tables and no fatal error, at every tolerance. -/
theorem empty_input_four_empty_reports (tol : ℚ) :
    pipeline emptyTable tol = .ok ([], [], [], []) := rfl

/-- Claim C9. The time parser is total: every successful parse is a valid
time-of-day, and the only other outcome is the absent value `none` — in
particular a fractional-day value whose minute component rounds up to 60
(0.0415 days = 59.76 minutes) yields `none`, not a failure. -/
theorem parse_time_total :
    (∀ (x : Option String) (t : Time), parse_time x = some t →
        t.hour < 24 ∧ t.minute < 60 ∧ t.second < 60) ∧
    parse_time (some "415e-4") = none :=
  ⟨fun _ _ h => parse_time_valid h, parse_time_415⟩

/-- Witness for C9: a concrete successful parse, with valid fields. -/
theorem parse_time_total_witness :
    parse_time (some "14:30") = some ⟨14, 30, 0⟩ ∧
    ((14 : Nat) < 24 ∧ (30 : Nat) < 60 ∧ (0 : Nat) < 60) :=
  ⟨rfl, parse_time_total.1 (some "14:30") ⟨14, 30, 0⟩ rfl⟩

/-- Claim C10. A missing teacher fiscal code or class cell stringifies to
`"NAN"`: the resulting key is the literal non-empty string `"NAN"` (so such
records pass the overlap key-length filter instead of being excluded), and
any two records with missing codes on the same date carry the same
(date, key) partition tag. -/
theorem missing_key_becomes_nan :
    (∀ (idx : Nat) (r : RawRecord), r.codiceFiscale = none →
        (normalizeRecord idx r).cfNorm = "NAN" ∧
          0 < (normalizeRecord idx r).cfNorm.length) ∧
    (∀ (idx : Nat) (r : RawRecord), r.classe = none →
        (normalizeRecord idx r).classKey = "NAN") ∧
    (∀ (i1 : Nat) (r1 : RawRecord) (i2 : Nat) (r2 : RawRecord),
        r1.codiceFiscale = none → r2.codiceFiscale = none →
        r1.dataLezione = r2.dataLezione →
        (dateStr (normalizeRecord i1 r1).date, (normalizeRecord i1 r1).cfNorm) =
          (dateStr (normalizeRecord i2 r2).date, (normalizeRecord i2 r2).cfNorm)) := by
  refine ⟨?_, ?_, ?_⟩
  · intro idx r h
    constructor
    · show pyStrNorm r.codiceFiscale = "NAN"
      rw [h]
      rfl
    · show 0 < (pyStrNorm r.codiceFiscale).length
      rw [h]
      decide
  · intro idx r h
    show pyStrNorm r.classe = "NAN"
    rw [h]
    rfl
  · intro i1 r1 i2 r2 h1 h2 hd
    show (dateStr r1.dataLezione, pyStrNorm r1.codiceFiscale) =
      (dateStr r2.dataLezione, pyStrNorm r2.codiceFiscale)
    rw [h1, h2, hd]


/-- Witness for C10: the concrete record with all identifying cells
missing. -/
theorem missing_key_becomes_nan_witness :
    (normalizeRecord 0 noCfRaw).cfNorm = "NAN" ∧
    0 < (normalizeRecord 0 noCfRaw).cfNorm.length :=
  missing_key_becomes_nan.1 0 noCfRaw rfl

end ControlloCalendario
